import Mathlib

/-!
Shallow embedding of the replication + job-coordination core of the
auto-cluster-sync todo service.

The Go store (internal/database/database.go) keeps a single SQLite table
`todos`; we model a committed database state as a list of rows plus the
AUTOINCREMENT counter.  Timestamps (`time.Now()`) are modelled as a `Nat`
tick passed explicitly to each operation.  Each Lean definition mirrors
one Go function; statements about HTTP and the cluster event handlers
build on the same store model.
-/

namespace AutoClusterSync

/-- Processing status constants from `internal/models` (`StatusPending` …). -/
def StatusPending : String := "pending"

/-- `models.StatusClaimed`. -/
def StatusClaimed : String := "claimed"

/-- `models.StatusProcessing`. -/
def StatusProcessing : String := "processing"

/-- `models.StatusCompleted`. -/
def StatusCompleted : String := "completed"

/-- `models.StatusFailed`. -/
def StatusFailed : String := "failed"

/-- `models.Todo`: one row of the `todos` table.  Nullable SQL columns
(`claimed_by`, `claimed_at`, `last_heartbeat`, `processing_started_at`,
`processing_completed_at`) are `Option`s, as in the Go struct. -/
structure Todo where
  id : Nat
  externID : String
  todo : String
  completed : Bool
  createdAt : Nat
  processingStatus : String
  claimedBy : Option String
  claimedAt : Option Nat
  lastHeartbeat : Option Nat
  processingStartedAt : Option Nat
  processingCompletedAt : Option Nat
deriving Repr, DecidableEq

/-- A committed database state: the rows of `todos` in insertion (rowid)
order, plus the next AUTOINCREMENT id. -/
structure DBState where
  rows : List Todo
  nextID : Nat
deriving Repr, DecidableEq

/-- The state produced by `initSchema` on a fresh file: empty table,
AUTOINCREMENT starting at 1. -/
def initDB : DBState := { rows := [], nextID := 1 }

/-- Error outcomes of store operations that the callers distinguish:
`duplicate` is the unique-index violation on `extern_id`; `notOwned` is
`SendHeartbeat`'s "no job found or job not owned by this node". -/
inductive DBError where
  | duplicate
  | notOwned
deriving Repr, DecidableEq

/-- `GetTodo`: `SELECT … WHERE id = ?` (unique primary key; first match). -/
def getTodo (s : DBState) (id : Nat) : Option Todo :=
  s.rows.find? (fun r => decide (r.id = id))

/-- `GetTodoByExternID`: `SELECT … WHERE extern_id = ?`. -/
def getTodoByExternID (s : DBState) (externID : String) : Option Todo :=
  s.rows.find? (fun r => decide (r.externID = externID))

/-- The row inserted by `CreateTodo`: `completed = false`, schema default
`processing_status = 'pending'`, all claim columns NULL. -/
def mkTodo (id : Nat) (externID todoText : String) (now : Nat) : Todo :=
  { id := id, externID := externID, todo := todoText, completed := false,
    createdAt := now, processingStatus := StatusPending,
    claimedBy := none, claimedAt := none, lastHeartbeat := none,
    processingStartedAt := none, processingCompletedAt := none }

/-- `CreateTodo`: INSERT, which the unique index on `extern_id` rejects
when the id is already present; otherwise the new row is appended and
returned (the Go code re-reads it via `GetTodo(LastInsertId)`). -/
def createTodo (s : DBState) (now : Nat) (externID todoText : String) :
    Except DBError (DBState × Todo) :=
  if s.rows.any (fun r => decide (r.externID = externID)) then
    .error .duplicate
  else
    .ok ({ rows := s.rows ++ [mkTodo s.nextID externID todoText now],
           nextID := s.nextID + 1 },
         mkTodo s.nextID externID todoText now)

/-- The row-level effect of `UpdateTodo`'s dynamic UPDATE: only the
provided columns are in the SET list. -/
def applyUpdate (todoText : Option String) (completed : Option Bool) (r : Todo) : Todo :=
  { r with todo := todoText.getD r.todo, completed := completed.getD r.completed }

/-- `UpdateTodo`: read the row (`nil, nil` when absent — modelled as
`none`); with no provided field return the existing row without writing;
otherwise UPDATE the row and re-read it. -/
def updateTodo (s : DBState) (id : Nat) (todoText : Option String)
    (completed : Option Bool) : Option (DBState × Todo) :=
  match getTodo s id with
  | none => none
  | some existing =>
    if todoText.isNone && completed.isNone then
      some (s, existing)
    else
      let s2 : DBState :=
        { s with rows := s.rows.map (fun r =>
            if r.id = id then applyUpdate todoText completed r else r) }
      match getTodo s2 id with
      | some updated => some (s2, updated)
      | none => none

/-- `DeleteTodo`: DELETE by id; `sql.ErrNoRows` (here `false`) when no
row was affected. -/
def deleteTodo (s : DBState) (id : Nat) : DBState × Bool :=
  ({ s with rows := s.rows.filter (fun r => !(decide (r.id = id))) },
   s.rows.any (fun r => decide (r.id = id)))

/-- The `WHERE processing_status = 'pending' AND completed = 0` filter of
`ClaimNextPendingTodo`. -/
def pendingNotDone (r : Todo) : Bool :=
  decide (r.processingStatus = StatusPending) && !r.completed

/-- One step of scanning for the oldest pending row (`ORDER BY created_at
ASC LIMIT 1`; ties resolved in rowid order, as the index scan does). -/
def olderPending (best : Option Todo) (r : Todo) : Option Todo :=
  if pendingNotDone r then
    match best with
    | none => some r
    | some b => if r.createdAt < b.createdAt then some r else some b
  else best

/-- The row selected by `ClaimNextPendingTodo`'s SELECT, if any. -/
def selectOldestPending (rows : List Todo) : Option Todo :=
  rows.foldl olderPending none

/-- The claimed image of a row: `processing_status = 'claimed'`,
`claimed_by = nodeID`, `claimed_at = last_heartbeat = now`. -/
def claimRow (now : Nat) (nodeID : String) (r : Todo) : Todo :=
  { r with processingStatus := StatusClaimed, claimedBy := some nodeID,
           claimedAt := some now, lastHeartbeat := some now }

/-- `ClaimNextPendingTodo`: select the oldest pending not-done row; if
none, return `nil` leaving the store untouched; else UPDATE that row
(guarded by `AND processing_status = 'pending'`) and return its claimed
image. -/
def claimNextPendingTodo (s : DBState) (now : Nat) (nodeID : String) :
    Option Todo × DBState :=
  match selectOldestPending s.rows with
  | none => (none, s)
  | some t =>
    (some (claimRow now nodeID t),
     { s with rows := s.rows.map (fun r =>
         if r.id = t.id ∧ r.processingStatus = StatusPending then
           claimRow now nodeID r
         else r) })

/-- The row-level effect of `UpdateJobStatus`: set the status, and stamp
`processing_completed_at` only for the terminal statuses. -/
def finaliseRow (now : Nat) (status : String) (r : Todo) : Todo :=
  { r with processingStatus := status,
           processingCompletedAt :=
             if status = StatusCompleted ∨ status = StatusFailed then some now
             else r.processingCompletedAt }

/-- `UpdateJobStatus`: unconditional UPDATE keyed by `extern_id`; the
claim columns are not in the SET list. -/
def updateJobStatus (s : DBState) (now : Nat) (externID status : String) : DBState :=
  { s with rows := s.rows.map (fun r =>
      if r.externID = externID then finaliseRow now status r else r) }

/-- `SendHeartbeat`'s WHERE clause: same `extern_id`, claimed by this
node, status in (`claimed`, `processing`). -/
def heartbeatMatch (externID nodeID : String) (r : Todo) : Bool :=
  decide (r.externID = externID) && decide (r.claimedBy = some nodeID) &&
    (decide (r.processingStatus = StatusClaimed) ||
     decide (r.processingStatus = StatusProcessing))

/-- `SendHeartbeat`: UPDATE `last_heartbeat` on the matching row; when no
row is affected report the not-owned error (and nothing changed). -/
def sendHeartbeat (s : DBState) (now : Nat) (externID nodeID : String) :
    Except DBError DBState :=
  if s.rows.any (heartbeatMatch externID nodeID) then
    .ok { s with rows := s.rows.map (fun r =>
        if heartbeatMatch externID nodeID r then { r with lastHeartbeat := some now }
        else r) }
  else .error .notOwned

/-- The released image of a row: back to `pending`, claim columns and
`processing_started_at` cleared (`ReleaseJob`'s SET list). -/
def releaseRow (r : Todo) : Todo :=
  { r with processingStatus := StatusPending, claimedBy := none, claimedAt := none,
           lastHeartbeat := none, processingStartedAt := none }

/-- `ReleaseJob`: unconditional UPDATE keyed by `extern_id`. -/
def releaseJob (s : DBState) (externID : String) : DBState :=
  { s with rows := s.rows.map (fun r =>
      if r.externID = externID then releaseRow r else r) }

/-- The processing image of a row (`MarkJobProcessing`'s SET list). -/
def startRow (now : Nat) (r : Todo) : Todo :=
  { r with processingStatus := StatusProcessing, processingStartedAt := some now }

/-- `MarkJobProcessing`: UPDATE guarded by `processing_status = 'claimed'`. -/
def markJobProcessing (s : DBState) (now : Nat) (externID : String) : DBState :=
  { s with rows := s.rows.map (fun r =>
      if r.externID = externID ∧ r.processingStatus = StatusClaimed then startRow now r
      else r) }

/-- `GetJobsByNode`: rows claimed by the node and still in claimed or
processing status. -/
def jobsByNode (s : DBState) (nodeID : String) : List Todo :=
  s.rows.filter (fun r =>
    decide (r.claimedBy = some nodeID) &&
      (decide (r.processingStatus = StatusClaimed) ||
       decide (r.processingStatus = StatusProcessing)))

/-- `TodoSyncEvent` (internal/cluster/types.go): the `created`/`updated`/
`deleted` item-event envelope.  `completed` is a `*bool`, hence `Option`. -/
structure TodoSyncEvent where
  type : String
  externID : String
  todo : String
  completed : Option Bool
  nodeID : String
  timestamp : Int
deriving Repr, DecidableEq

/-- Wire name `todo:created`. -/
def EventTodoCreated : String := "todo:created"

/-- Wire name `todo:updated`. -/
def EventTodoUpdated : String := "todo:updated"

/-- Wire name `todo:deleted`. -/
def EventTodoDeleted : String := "todo:deleted"

/-- `handleTodoCreated` (cluster event handler): drop echoes by
`origin_node`; no-op when the `extern_id` is already present; otherwise
`CreateTodo(extern_id, todo)` — the event's `completed` field is never
read.  A failed insert leaves the store unchanged. -/
def handleTodoCreated (localID : String) (s : DBState) (now : Nat)
    (ev : TodoSyncEvent) : DBState :=
  if ev.nodeID = localID then s
  else
    match getTodoByExternID s ev.externID with
    | some _ => s
    | none =>
      match createTodo s now ev.externID ev.todo with
      | .ok (s2, _) => s2
      | .error _ => s

/-- `handleTodoUpdated`: drop echoes; when the item is missing, create it
from the event's `todo` text and return (the update itself is not
applied); when present, `UpdateTodo` with `todo` only if non-empty and
with the event's `completed` pointer as-is. -/
def handleTodoUpdated (localID : String) (s : DBState) (now : Nat)
    (ev : TodoSyncEvent) : DBState :=
  if ev.nodeID = localID then s
  else
    match getTodoByExternID s ev.externID with
    | none =>
      match createTodo s now ev.externID ev.todo with
      | .ok (s2, _) => s2
      | .error _ => s
    | some existing =>
      match updateTodo s existing.id
          (if ev.todo = "" then none else some ev.todo) ev.completed with
      | some (s2, _) => s2
      | none => s

/-- `handleTodoDeleted`: drop echoes; delete by the locally resolved id
when present, else no-op. -/
def handleTodoDeleted (localID : String) (s : DBState) (ev : TodoSyncEvent) : DBState :=
  if ev.nodeID = localID then s
  else
    match getTodoByExternID s ev.externID with
    | none => s
    | some existing => (deleteTodo s existing.id).1

/-- The HTTP create handler (internal/api/api.go `createTodo`): any error
from `CreateTodo` — including the duplicate `extern_id` unique-index
violation — is returned as `huma.Error500InternalServerError`; there is
no other error mapping on this path. -/
def apiCreateTodo (s : DBState) (now : Nat) (externID todoText : String) :
    Except Nat (DBState × Todo) :=
  match createTodo s now externID todoText with
  | .error _ => .error 500
  | .ok res => .ok res

/-- One committed store operation, as named in the spec's §4.2 contract:
`Finalise` is `UpdateJobStatus` restricted to the two terminal statuses
(the worker's only two call sites). -/
inductive StoreOp where
  | create (now : Nat) (externID todoText : String)
  | updatePayload (id : Nat) (todoText : Option String) (completed : Option Bool)
  | claimNext (now : Nat) (nodeID : String)
  | markProcessing (now : Nat) (externID : String)
  | heartbeat (now : Nat) (externID nodeID : String)
  | finalise (now : Nat) (externID : String) (failed : Bool)
  | release (externID : String)
deriving Repr, DecidableEq

/-- The committed store state after one operation; a failed operation
(duplicate insert, missing row, not-owned heartbeat) commits nothing. -/
def applyStoreOp (s : DBState) (op : StoreOp) : DBState :=
  match op with
  | .create now e t =>
    match createTodo s now e t with
    | .ok (s2, _) => s2
    | .error _ => s
  | .updatePayload id t c =>
    match updateTodo s id t c with
    | some (s2, _) => s2
    | none => s
  | .claimNext now n => (claimNextPendingTodo s now n).2
  | .markProcessing now e => markJobProcessing s now e
  | .heartbeat now e n =>
    match sendHeartbeat s now e n with
    | .ok s2 => s2
    | .error _ => s
  | .finalise now e failed =>
    updateJobStatus s now e (if failed then StatusFailed else StatusCompleted)
  | .release e => releaseJob s e

/-- A committed operation sequence, applied left to right. -/
def applyStoreOps (s : DBState) (ops : List StoreOp) : DBState :=
  ops.foldl applyStoreOp s

/-- The cluster component's mutable state (internal/cluster/cluster.go):
its node name, the latched `ready` flag, the idempotent-`Stop` flag, and
the node's store. -/
structure ClusterState where
  nodeID : String
  ready : Bool
  stopped : Bool
  db : DBState
deriving Repr, DecidableEq

/-- `markReady`: set `ready` (and close `readyCh`) only on the first
call. -/
def markReady (c : ClusterState) : ClusterState :=
  if c.ready then c else { c with ready := true }

/-- The wait computed in `requestFullSync`, in seconds: zero when no
todos are expected, else `expectedCount/10 + 5` (Go integer division)
capped at 30. -/
def fullSyncWaitSeconds (expectedCount : Nat) : Nat :=
  if expectedCount > 0 then
    let waitTime := expectedCount / 10 + 5
    if waitTime > 30 then 30 else waitTime
  else 0

/-- `requestFullSync`: the query and the timed wait touch no local state
(the streamed items arrive as separate `todo:created` events); its
deferred `markReady` runs on every path out of the function. -/
def requestFullSync (c : ClusterState) (_expectedCount : Nat) : ClusterState :=
  markReady c

/-- `reclaimJobsFromNode`: release every job the failed node holds. -/
def reclaimJobs (s : DBState) (nodeID : String) : DBState :=
  (jobsByNode s nodeID).foldl (fun acc j => releaseJob acc j.externID) s

/-- `handleUserEvent`: the (dead) outer echo check compares the event
NAME to the node id; then dispatch on the wire name.  The job events only
log, so they leave the state unchanged. -/
def handleUserEvent (c : ClusterState) (now : Nat) (name : String)
    (ev : TodoSyncEvent) : ClusterState :=
  if name = c.nodeID then c
  else if name = EventTodoCreated then
    { c with db := handleTodoCreated c.nodeID c.db now ev }
  else if name = EventTodoUpdated then
    { c with db := handleTodoUpdated c.nodeID c.db now ev }
  else if name = EventTodoDeleted then
    { c with db := handleTodoDeleted c.nodeID c.db ev }
  else c

/-- The ways `Start` can come back: without seeds, with no seed
responding, with every join attempt failing, after the sync wait
finished (`readyCh` closed), or after the 30 s sync timeout. -/
inductive StartOutcome where
  | noSeeds
  | noPeerResponded
  | joinFailed
  | syncWaitCompleted
  | syncTimeout
deriving Repr, DecidableEq

/-- One transition of the cluster component observable on its state. -/
inductive ClusterOp where
  | markReadyOp
  | startOp (outcome : StartOutcome)
  | stopOp
  | fullSyncOp (expectedCount : Nat)
  | userEventOp (now : Nat) (name : String) (ev : TodoSyncEvent)
  | memberFailedOp (node : String)
deriving Repr, DecidableEq

/-- Effect of one cluster transition.  Every `Start` path except the
`readyCh` one ends in `markReady`; `Stop` only latches `stopped`;
`requestFullSync` defers `markReady`; event handlers touch only the
store. -/
def applyClusterOp (c : ClusterState) (op : ClusterOp) : ClusterState :=
  match op with
  | .markReadyOp => markReady c
  | .startOp o =>
    match o with
    | .syncWaitCompleted => c
    | _ => markReady c
  | .stopOp => if c.stopped then c else { c with stopped := true }
  | .fullSyncOp n => requestFullSync c n
  | .userEventOp now name ev => handleUserEvent c now name ev
  | .memberFailedOp node => { c with db := reclaimJobs c.db node }

/-- A sequence of cluster transitions, applied left to right. -/
def applyClusterOps (c : ClusterState) (ops : List ClusterOp) : ClusterState :=
  ops.foldl applyClusterOp c

deriving instance DecidableEq for Except

/-- A one-row store used to instantiate theorems with hypotheses. -/
def demoTodo : Todo := mkTodo 1 "t-1" "pay" 3

/-- The store holding exactly `demoTodo`. -/
def demoStore : DBState := { rows := [demoTodo], nextID := 2 }

theorem map_eq_self_of_forall {α : Type} (f : α → α) (l : List α)
    (h : ∀ a ∈ l, f a = a) : l.map f = l := by
  conv_rhs => rw [← List.map_id l]
  exact List.map_congr_left h

theorem find_append_of_left_none {α : Type} (p : α → Bool) (l1 l2 : List α)
    (h : l1.find? p = none) : (l1 ++ l2).find? p = l2.find? p := by
  rw [List.find?_append, h, Option.none_or]

/-- Helper: looking a row up by id inside the state produced by
`UpdateTodo`'s UPDATE gives the updated image of the row found before. -/
theorem getTodo_after_update (s : DBState) (id : Nat) (t? : Option String)
    (c? : Option Bool) (r : Todo) (h : getTodo s id = some r) :
    getTodo { s with rows := s.rows.map (fun q =>
        if q.id = id then applyUpdate t? c? q else q) } id =
      some (applyUpdate t? c? r) := by
  have hid : r.id = id := by
    have := List.find?_some h
    simpa using this
  unfold getTodo at h ⊢
  rw [List.find?_map]
  have hp : ((fun q : Todo => decide (q.id = id)) ∘
      (fun q : Todo => if q.id = id then applyUpdate t? c? q else q)) =
      fun q : Todo => decide (q.id = id) := by
    funext q
    by_cases hq : q.id = id
    · simp [hq, applyUpdate]
    · simp [hq]
  rw [hp, h]
  simp [Option.map_some, hid]

/-- C7: `UpdateTodo` on an existing row writes exactly the provided
fields of exactly that row: the result is the row with `todo` and
`completed` overridden by the provided values, every processing, claim
and identity column of that row is untouched, and every other row of the
store is untouched (with no provided field there is no write at all). -/
theorem updateTodo_frame (s : DBState) (id : Nat) (t? : Option String)
    (c? : Option Bool) (r : Todo) (h : getTodo s id = some r) :
    updateTodo s id t? c? = some
      (if t?.isNone && c?.isNone then s
       else { s with rows := s.rows.map (fun q =>
           if q.id = id then applyUpdate t? c? q else q) },
       applyUpdate t? c? r) ∧
    (applyUpdate t? c? r).todo = t?.getD r.todo ∧
    (applyUpdate t? c? r).completed = c?.getD r.completed ∧
    (applyUpdate t? c? r).processingStatus = r.processingStatus ∧
    (applyUpdate t? c? r).claimedBy = r.claimedBy ∧
    (applyUpdate t? c? r).claimedAt = r.claimedAt ∧
    (applyUpdate t? c? r).lastHeartbeat = r.lastHeartbeat ∧
    (applyUpdate t? c? r).processingStartedAt = r.processingStartedAt ∧
    (applyUpdate t? c? r).processingCompletedAt = r.processingCompletedAt ∧
    (applyUpdate t? c? r).externID = r.externID ∧
    (applyUpdate t? c? r).createdAt = r.createdAt ∧
    (applyUpdate t? c? r).id = r.id ∧
    (∀ q ∈ s.rows, q.id ≠ id →
      q ∈ (if t?.isNone && c?.isNone then s
           else { s with rows := s.rows.map (fun q2 =>
               if q2.id = id then applyUpdate t? c? q2 else q2) }).rows) := by
  refine ⟨?_, rfl, rfl, rfl, rfl, rfl, rfl, rfl, rfl, rfl, rfl, rfl, ?_⟩
  · simp only [updateTodo, h]
    by_cases hb : (t?.isNone && c?.isNone) = true
    · rw [if_pos hb, if_pos hb]
      obtain ⟨ht, hc⟩ := Bool.and_eq_true_iff.mp hb
      have ht2 : t? = none := Option.isNone_iff_eq_none.mp ht
      have hc2 : c? = none := Option.isNone_iff_eq_none.mp hc
      subst ht2 hc2
      rfl
    · rw [if_neg hb, if_neg hb]
      rw [getTodo_after_update s id t? c? r h]
  · intro q hq hqid
    by_cases hb : t?.isNone && c?.isNone
    · rw [if_pos hb]; exact hq
    · rw [if_neg hb]
      simp only [List.mem_map]
      exact ⟨q, hq, by rw [if_neg hqid]⟩

/-- Witness for C7 at a concrete store: update the payload and done flag
of `demoTodo`. -/
theorem updateTodo_frame_witness :
    updateTodo demoStore 1 (some "new") (some true) = some
      (if (some "new").isNone && (some true).isNone then demoStore
       else { demoStore with rows := demoStore.rows.map (fun q =>
           if q.id = 1 then applyUpdate (some "new") (some true) q else q) },
       applyUpdate (some "new") (some true) demoTodo) :=
  (updateTodo_frame demoStore 1 (some "new") (some true) demoTodo (by decide)).1

/-- C10: `UpdateTodo` with neither field provided returns the existing
row and performs no write: it succeeds and leaves the store exactly as it
was. -/
theorem updateTodo_noFields (s : DBState) (id : Nat) (r : Todo)
    (h : getTodo s id = some r) :
    updateTodo s id none none = some (s, r) := by
  unfold updateTodo
  rw [h]
  rfl

/-- Witness for C10 at a concrete store. -/
theorem updateTodo_noFields_witness :
    updateTodo demoStore 1 none none = some (demoStore, demoTodo) :=
  updateTodo_noFields demoStore 1 demoTodo (by decide)

/-- An inbound `todo:created` event from a peer that carries
`completed = true`. -/
def evC2 : TodoSyncEvent :=
  { type := "created", externID := "t-1", todo := "pay", completed := some true,
    nodeID := "node-b", timestamp := 0 }

/-- C2 counterexample: an inbound created event for a fresh `extern_id`
carrying `done = true` produces an item with `done = false` — the done
value carried in the event is not honoured, contradicting the claim. -/
theorem handleTodoCreated_done_counterexample :
    evC2.completed = some true ∧
    (getTodoByExternID (handleTodoCreated "node-a" initDB 7 evC2) "t-1").map
        Todo.completed = some false ∧
    (getTodoByExternID (handleTodoCreated "node-a" initDB 7 evC2) "t-1").map
        Todo.completed ≠ evC2.completed := by
  decide

/-- C2 amended: an inbound created event from another node for an
`extern_id` not yet present creates an item whose payload equals the
event payload and whose done flag is false regardless of the done value
carried in the event (`handleTodoCreated` never reads it). -/
theorem handleTodoCreated_ignores_done (localID : String) (s : DBState)
    (now : Nat) (ev : TodoSyncEvent) (hne : ev.nodeID ≠ localID)
    (hmiss : getTodoByExternID s ev.externID = none) :
    handleTodoCreated localID s now ev =
      { rows := s.rows ++ [mkTodo s.nextID ev.externID ev.todo now],
        nextID := s.nextID + 1 } ∧
    (mkTodo s.nextID ev.externID ev.todo now).todo = ev.todo ∧
    (mkTodo s.nextID ev.externID ev.todo now).completed = false := by
  refine ⟨?_, rfl, rfl⟩
  have hany : s.rows.any (fun r => decide (r.externID = ev.externID)) = false := by
    rw [List.any_eq_false]
    intro r hr
    have := List.find?_eq_none.mp hmiss r hr
    simpa using this
  simp only [handleTodoCreated, if_neg hne, hmiss, createTodo, hany]
  simp

/-- Witness for the amended C2 at a concrete event and empty store. -/
theorem handleTodoCreated_ignores_done_witness :
    handleTodoCreated "node-a" initDB 7 evC2 =
      { rows := initDB.rows ++ [mkTodo initDB.nextID evC2.externID evC2.todo 7],
        nextID := initDB.nextID + 1 } :=
  (handleTodoCreated_ignores_done "node-a" initDB 7 evC2 (by decide) (by rfl)).1

/-- C5 counterexample: `POST /todos` with the already-present
`extern_id = "t-1"` fails with HTTP 500, not with the claimed 409. -/
theorem apiCreateTodo_duplicate_counterexample :
    apiCreateTodo demoStore 9 "t-1" "other" = .error 500 ∧
    apiCreateTodo demoStore 9 "t-1" "other" ≠ .error 409 := by
  decide

/-- C5 amended: a create whose `extern_id` is already present fails with
the duplicate error kind at the store, and the HTTP handler surfaces it
to the caller as a 500 response (the handler maps every `CreateTodo`
error to `Error500InternalServerError`; no 409 mapping exists). -/
theorem apiCreateTodo_duplicate_500 (s : DBState) (now : Nat)
    (externID todoText : String) (h : ∃ r ∈ s.rows, r.externID = externID) :
    createTodo s now externID todoText = .error .duplicate ∧
    apiCreateTodo s now externID todoText = .error 500 := by
  have hany : s.rows.any (fun r => decide (r.externID = externID)) = true := by
    rw [List.any_eq_true]
    obtain ⟨r, hr, he⟩ := h
    exact ⟨r, hr, by simpa using he⟩
  constructor
  · simp [createTodo, hany]
  · simp [apiCreateTodo, createTodo, hany]

/-- Witness for the amended C5 at a concrete duplicate create. -/
theorem apiCreateTodo_duplicate_500_witness :
    createTodo demoStore 9 "t-1" "other" = .error .duplicate ∧
    apiCreateTodo demoStore 9 "t-1" "other" = .error 500 :=
  apiCreateTodo_duplicate_500 demoStore 9 "t-1" "other" (by decide)

/-- C6: `SendHeartbeat` succeeds — stamping `last_heartbeat = now` on the
matching row and touching nothing else — exactly when some row has this
`extern_id`, is claimed by this node, and is in claimed or processing
status; in every other case it reports the not-owned error and no row
changes. -/
theorem sendHeartbeat_spec (s : DBState) (now : Nat) (externID nodeID : String) :
    ((∃ r ∈ s.rows, r.externID = externID ∧ r.claimedBy = some nodeID ∧
        (r.processingStatus = StatusClaimed ∨ r.processingStatus = StatusProcessing)) →
      sendHeartbeat s now externID nodeID =
        .ok { s with rows := s.rows.map (fun r =>
            if heartbeatMatch externID nodeID r then { r with lastHeartbeat := some now }
            else r) }) ∧
    ((∀ r ∈ s.rows, ¬(r.externID = externID ∧ r.claimedBy = some nodeID ∧
        (r.processingStatus = StatusClaimed ∨ r.processingStatus = StatusProcessing))) →
      sendHeartbeat s now externID nodeID = .error .notOwned) := by
  have hiff : ∀ r : Todo, heartbeatMatch externID nodeID r = true ↔
      (r.externID = externID ∧ r.claimedBy = some nodeID ∧
       (r.processingStatus = StatusClaimed ∨ r.processingStatus = StatusProcessing)) := by
    intro r
    simp [heartbeatMatch, and_assoc]
  constructor
  · intro hex
    have hany : s.rows.any (heartbeatMatch externID nodeID) = true := by
      rw [List.any_eq_true]
      obtain ⟨r, hr, hp⟩ := hex
      exact ⟨r, hr, (hiff r).mpr hp⟩
    simp [sendHeartbeat, hany]
  · intro hall
    have hany : s.rows.any (heartbeatMatch externID nodeID) = false := by
      rw [List.any_eq_false]
      intro r hr hm
      exact hall r hr ((hiff r).mp hm)
    simp [sendHeartbeat, hany]

/-- The image of `demoTodo` after a successful claim by `node-1`. -/
def demoClaimed : Todo := claimRow 4 "node-1" demoTodo

/-- A store holding one row claimed by `node-1`. -/
def demoClaimedStore : DBState := { rows := [demoClaimed], nextID := 2 }

/-- Witness for C6: a heartbeat on the claimed row succeeds; on the
unclaimed row it reports not-owned. -/
theorem sendHeartbeat_spec_witness :
    sendHeartbeat demoClaimedStore 9 "t-1" "node-1" =
      .ok { demoClaimedStore with rows := demoClaimedStore.rows.map (fun r =>
          if heartbeatMatch "t-1" "node-1" r then { r with lastHeartbeat := some 9 }
          else r) } ∧
    sendHeartbeat demoStore 9 "t-1" "node-1" = .error .notOwned :=
  ⟨(sendHeartbeat_spec demoClaimedStore 9 "t-1" "node-1").1 (by decide),
   (sendHeartbeat_spec demoStore 9 "t-1" "node-1").2 (by decide)⟩

theorem clusterOp_preserves_ready (c : ClusterState) (op : ClusterOp)
    (h : c.ready = true) : (applyClusterOp c op).ready = true := by
  cases op with
  | markReadyOp => simp [applyClusterOp, markReady, h]
  | startOp o => cases o <;> simp [applyClusterOp, markReady, h]
  | stopOp => by_cases hs : c.stopped <;> simp [applyClusterOp, hs, h]
  | fullSyncOp n => simp [applyClusterOp, requestFullSync, markReady, h]
  | userEventOp now name ev =>
    simp only [applyClusterOp, handleUserEvent]
    split_ifs <;> simp [h]
  | memberFailedOp node => simp [applyClusterOp, h]

/-- C8: readiness is latched — once `ready` is true, no sequence of
cluster transitions (markReady, Start outcomes, Stop, event handling,
requestFullSync, peer-failure reclaim) ever makes it false again. -/
theorem ready_latched (c : ClusterState) (ops : List ClusterOp)
    (h : c.ready = true) : (applyClusterOps c ops).ready = true := by
  induction ops generalizing c with
  | nil => exact h
  | cons op rest ih => exact ih _ (clusterOp_preserves_ready c op h)

/-- A ready cluster node over the one-row store. -/
def demoCluster : ClusterState :=
  { nodeID := "node-a", ready := true, stopped := false, db := demoStore }

/-- Witness for C8 on a concrete transition sequence. -/
theorem ready_latched_witness :
    (applyClusterOps demoCluster
      [.stopOp, .userEventOp 5 EventTodoCreated evC2, .markReadyOp]).ready = true :=
  ready_latched demoCluster
    [.stopOp, .userEventOp 5 EventTodoCreated evC2, .markReadyOp] rfl

/-- C9: the full-sync wait is zero when no items are expected and
otherwise `min(30 s, N/10 + 5 s)` seconds (integer division, as in the
source), and `requestFullSync` marks the node ready when it returns,
regardless of what arrived. -/
theorem fullSync_wait_formula (c : ClusterState) (n : Nat) :
    (n = 0 → fullSyncWaitSeconds n = 0) ∧
    (0 < n → fullSyncWaitSeconds n = min 30 (n / 10 + 5)) ∧
    (applyClusterOp c (.fullSyncOp n)).ready = true := by
  refine ⟨?_, ?_, ?_⟩
  · intro h
    subst h
    rfl
  · intro h
    simp only [fullSyncWaitSeconds, if_pos h]
    rw [Nat.min_def]
    split <;> split <;> omega
  · simp only [applyClusterOp, requestFullSync, markReady]
    by_cases hr : c.ready <;> simp [hr]

/-- Witness for C9 at the zero and a positive expected count. -/
theorem fullSync_wait_formula_witness :
    fullSyncWaitSeconds 0 = 0 ∧
    fullSyncWaitSeconds 42 = min 30 (42 / 10 + 5) ∧
    (applyClusterOp demoCluster (.fullSyncOp 0)).ready = true :=
  ⟨(fullSync_wait_formula demoCluster 0).1 rfl,
   (fullSync_wait_formula demoCluster 42).2.1 (by decide),
   (fullSync_wait_formula demoCluster 0).2.2⟩

theorem olderPending_skip (acc : Option Todo) (r : Todo)
    (hp : pendingNotDone r = false) : olderPending acc r = acc := by
  simp [olderPending, hp]

theorem olderPending_sound (acc : Option Todo) (r : Todo)
    (hp : pendingNotDone r = true) :
    ∃ u, olderPending acc r = some u ∧ u.createdAt ≤ r.createdAt ∧
      (u = r ∨ acc = some u) ∧
      (∀ b, acc = some b → u.createdAt ≤ b.createdAt) := by
  unfold olderPending
  rw [if_pos hp]
  cases acc with
  | none =>
    refine ⟨r, rfl, Nat.le_refl _, Or.inl rfl, ?_⟩
    intro b hb
    cases hb
  | some b =>
    by_cases hlt : r.createdAt < b.createdAt
    · refine ⟨r, by simp [hlt], Nat.le_refl _, Or.inl rfl, ?_⟩
      intro b2 hb2
      injection hb2 with he
      exact he ▸ Nat.le_of_lt hlt
    · refine ⟨b, by simp [hlt], Nat.le_of_not_lt hlt, Or.inr rfl, ?_⟩
      intro b2 hb2
      injection hb2 with he
      exact he ▸ Nat.le_refl _

theorem olderPending_mem (rows : List Todo) (acc : Option Todo) (t : Todo)
    (h : rows.foldl olderPending acc = some t) : t ∈ rows ∨ acc = some t := by
  induction rows generalizing acc with
  | nil => exact Or.inr h
  | cons r rest ih =>
    simp only [List.foldl_cons] at h
    rcases ih (olderPending acc r) h with hmem | hacc
    · exact Or.inl (List.mem_cons_of_mem _ hmem)
    · by_cases hp : pendingNotDone r = true
      · obtain ⟨u, hu, _, hur, _⟩ := olderPending_sound acc r hp
        rw [hu] at hacc
        injection hacc with he
        rcases hur with he2 | hb
        · exact Or.inl (by rw [← he, he2]; exact List.mem_cons_self r rest)
        · exact Or.inr (by rw [← he]; exact hb)
      · rw [olderPending_skip acc r (Bool.eq_false_iff.mpr hp)] at hacc
        exact Or.inr hacc

theorem olderPending_pending (rows : List Todo) (acc : Option Todo) (t : Todo)
    (hacc : ∀ b, acc = some b → pendingNotDone b = true)
    (h : rows.foldl olderPending acc = some t) : pendingNotDone t = true := by
  induction rows generalizing acc with
  | nil => exact hacc t h
  | cons r rest ih =>
    simp only [List.foldl_cons] at h
    refine ih (olderPending acc r) ?_ h
    intro b hb
    by_cases hp : pendingNotDone r = true
    · obtain ⟨u, hu, _, hur, _⟩ := olderPending_sound acc r hp
      rw [hu] at hb
      injection hb with he
      rcases hur with he2 | hb2
      · rw [← he, he2]
        exact hp
      · rw [← he]
        exact hacc u hb2
    · rw [olderPending_skip acc r (Bool.eq_false_iff.mpr hp)] at hb
      exact hacc b hb

theorem olderPending_min (rows : List Todo) (acc : Option Todo) (t : Todo)
    (h : rows.foldl olderPending acc = some t) :
    (∀ b, acc = some b → t.createdAt ≤ b.createdAt) ∧
    (∀ r ∈ rows, pendingNotDone r = true → t.createdAt ≤ r.createdAt) := by
  induction rows generalizing acc with
  | nil =>
    refine ⟨?_, ?_⟩
    · intro b hb
      rw [List.foldl_nil] at h
      rw [h] at hb
      injection hb with he
      exact he ▸ Nat.le_refl _
    · intro r hr
      cases hr
  | cons r rest ih =>
    simp only [List.foldl_cons] at h
    obtain ⟨ha, hrest⟩ := ih (olderPending acc r) h
    constructor
    · intro b hb
      subst hb
      by_cases hp : pendingNotDone r = true
      · obtain ⟨u, hu, _, _, hub⟩ := olderPending_sound (some b) r hp
        exact Nat.le_trans (ha u hu) (hub b rfl)
      · exact ha b (olderPending_skip (some b) r (Bool.eq_false_iff.mpr hp))
    · intro q hq hpq
      rcases List.mem_cons.mp hq with rfl | hq2
      · obtain ⟨u, hu, hur, _, _⟩ := olderPending_sound acc q hpq
        exact Nat.le_trans (ha u hu) hur
      · exact hrest q hq2 hpq

theorem olderPending_none (rows : List Todo) (acc : Option Todo)
    (h : rows.foldl olderPending acc = none) :
    acc = none ∧ ∀ r ∈ rows, pendingNotDone r = false := by
  induction rows generalizing acc with
  | nil =>
    refine ⟨h, ?_⟩
    intro r hr
    cases hr
  | cons r rest ih =>
    simp only [List.foldl_cons] at h
    obtain ⟨hstep, hrest⟩ := ih (olderPending acc r) h
    have hp : pendingNotDone r = false := by
      by_contra hc
      have hp2 : pendingNotDone r = true := by
        revert hc
        cases pendingNotDone r <;> simp
      obtain ⟨u, hu, _, _, _⟩ := olderPending_sound acc r hp2
      rw [hu] at hstep
      cases hstep
    have hacc : acc = none := by
      rw [olderPending_skip acc r hp] at hstep
      exact hstep
    refine ⟨hacc, ?_⟩
    intro q hq
    rcases List.mem_cons.mp hq with rfl | hq2
    · exact hp
    · exact hrest q hq2

/-- C3: `ClaimNextPendingTodo` on a store with no pending not-done row
returns `nil` and modifies nothing; when it returns a row, that row was a
pending not-done row with minimal `created_at`, the returned value is its
claimed image (`claimed`, `claimed_by = nodeID`,
`claimed_at = last_heartbeat = now`), and exactly that row is rewritten
in the store. -/
theorem claimNext_spec (s : DBState) (now : Nat) (nodeID : String) :
    ((∀ r ∈ s.rows, pendingNotDone r = false) →
      claimNextPendingTodo s now nodeID = (none, s)) ∧
    (∀ t, (claimNextPendingTodo s now nodeID).1 = some t →
      ∃ r ∈ s.rows, pendingNotDone r = true ∧
        (∀ q ∈ s.rows, pendingNotDone q = true → r.createdAt ≤ q.createdAt) ∧
        t = claimRow now nodeID r ∧
        (claimNextPendingTodo s now nodeID).2 =
          { s with rows := s.rows.map (fun q =>
              if q.id = r.id ∧ q.processingStatus = StatusPending then
                claimRow now nodeID q
              else q) }) := by
  constructor
  · intro hall
    have hsel : selectOldestPending s.rows = none := by
      unfold selectOldestPending
      cases hfold : s.rows.foldl olderPending none with
      | none => rfl
      | some t =>
        exfalso
        have hpend := olderPending_pending s.rows none t (by intro b hb; cases hb) hfold
        rcases olderPending_mem s.rows none t hfold with hmem | hnone
        · rw [hall t hmem] at hpend
          cases hpend
        · cases hnone
    unfold claimNextPendingTodo
    rw [hsel]
  · intro t ht
    cases hsel : selectOldestPending s.rows with
    | none =>
      exfalso
      unfold claimNextPendingTodo at ht
      rw [hsel] at ht
      cases ht
    | some r =>
      have hfold : s.rows.foldl olderPending none = some r := hsel
      have hmem : r ∈ s.rows := by
        rcases olderPending_mem s.rows none r hfold with hm | hn
        · exact hm
        · cases hn
      have hpend := olderPending_pending s.rows none r (by intro b hb; cases hb) hfold
      have hmin := (olderPending_min s.rows none r hfold).2
      have ht2 : t = claimRow now nodeID r := by
        unfold claimNextPendingTodo at ht
        rw [hsel] at ht
        injection ht with he
        exact he.symm
      refine ⟨r, hmem, hpend, hmin, ht2, ?_⟩
      unfold claimNextPendingTodo
      rw [hsel]

/-- Witness for C3: the empty store yields nothing; the one-row pending
store yields its claimed image. -/
theorem claimNext_spec_witness :
    claimNextPendingTodo initDB 5 "node-1" = (none, initDB) ∧
    (∃ r ∈ demoStore.rows, pendingNotDone r = true ∧
      (∀ q ∈ demoStore.rows, pendingNotDone q = true → r.createdAt ≤ q.createdAt) ∧
      claimRow 5 "node-1" demoTodo = claimRow 5 "node-1" r ∧
      (claimNextPendingTodo demoStore 5 "node-1").2 =
        { demoStore with rows := demoStore.rows.map (fun q =>
            if q.id = r.id ∧ q.processingStatus = StatusPending then
              claimRow 5 "node-1" q
            else q) }) :=
  ⟨(claimNext_spec initDB 5 "node-1").1 (by decide),
   (claimNext_spec demoStore 5 "node-1").2 (claimRow 5 "node-1" demoTodo) (by decide)⟩

/-- Helper: `UpdateTodo` that writes back the values a row already holds
(or writes nothing) leaves the store unchanged and returns that row. -/
theorem updateTodo_writes_existing (s2 : DBState) (id : Nat) (r : Todo)
    (t? : Option String) (c? : Option Bool) (hget : getTodo s2 id = some r)
    (ht : t?.getD r.todo = r.todo) (hc : c?.getD r.completed = r.completed)
    (hall : ∀ q ∈ s2.rows, q.id = id → q = r) :
    updateTodo s2 id t? c? = some (s2, r) := by
  simp only [updateTodo, hget]
  by_cases hb : (t?.isNone && c?.isNone) = true
  · rw [if_pos hb]
  · rw [if_neg hb]
    have hmap : s2.rows.map (fun q => if q.id = id then applyUpdate t? c? q else q) =
        s2.rows := by
      apply map_eq_self_of_forall
      intro q hq
      by_cases hid : q.id = id
      · rw [if_pos hid, hall q hq hid]
        unfold applyUpdate
        rw [ht, hc]
      · rw [if_neg hid]
    rw [hmap]
    have he : ({ rows := s2.rows, nextID := s2.nextID } : DBState) = s2 := rfl
    rw [he, hget]

/-- An inbound `todo:updated` event from a peer that carries
`completed = true`. -/
def evC4 : TodoSyncEvent :=
  { type := "updated", externID := "t-1", todo := "pay", completed := some true,
    nodeID := "node-b", timestamp := 0 }

/-- C4 counterexample: for an updated event carrying `done = true` and a
store without the item, applying `updated` first yields `done = false`,
while the claimed equivalent — the corresponding created event followed
by the updated event — yields `done = true`: the states differ and the
done flag does not match the event. -/
theorem updated_first_counterexample :
    handleTodoUpdated "node-a" initDB 7 evC4 ≠
      handleTodoUpdated "node-a"
        (handleTodoCreated "node-a" initDB 7 { evC4 with type := "created" }) 7 evC4 ∧
    (getTodoByExternID (handleTodoUpdated "node-a" initDB 7 evC4) "t-1").map
        Todo.completed = some false ∧
    evC4.completed = some true := by
  decide

/-- C4 amended: when the updated event carries no done value or
`done = false`, an updated event applied to a store without the item
creates it exactly as the corresponding created event would (payload from
the event, `done = false`), re-applying the updated event afterwards is a
no-op, and the resulting done flag is false.  When the event carries
`done = true` the equivalence fails: the updated-first item stays
`done = false` (see the counterexample); the freshness hypothesis is the
store's AUTOINCREMENT guarantee. -/
theorem handleTodoUpdated_heals (localID : String) (s : DBState) (now now2 : Nat)
    (ev : TodoSyncEvent) (hne : ev.nodeID ≠ localID)
    (hmiss : getTodoByExternID s ev.externID = none)
    (hfresh : ∀ r ∈ s.rows, r.id ≠ s.nextID)
    (hdone : ev.completed = none ∨ ev.completed = some false) :
    handleTodoUpdated localID s now ev =
      handleTodoCreated localID s now { ev with type := "created" } ∧
    handleTodoUpdated localID
        (handleTodoCreated localID s now { ev with type := "created" }) now2 ev =
      handleTodoCreated localID s now { ev with type := "created" } ∧
    (getTodoByExternID (handleTodoUpdated localID s now ev) ev.externID).map
        Todo.completed = some false := by
  have hany : s.rows.any (fun r => decide (r.externID = ev.externID)) = false := by
    rw [List.any_eq_false]
    intro r hr
    have := List.find?_eq_none.mp hmiss r hr
    simpa using this
  have hA : handleTodoCreated localID s now { ev with type := "created" } =
      { rows := s.rows ++ [mkTodo s.nextID ev.externID ev.todo now],
        nextID := s.nextID + 1 } := by
    simp [handleTodoCreated, hmiss, createTodo, hany, hne]
  have hB : handleTodoUpdated localID s now ev =
      { rows := s.rows ++ [mkTodo s.nextID ev.externID ev.todo now],
        nextID := s.nextID + 1 } := by
    simp [handleTodoUpdated, hmiss, createTodo, hany, hne]
  have hfindA : getTodoByExternID
      ({ rows := s.rows ++ [mkTodo s.nextID ev.externID ev.todo now],
         nextID := s.nextID + 1 } : DBState) ev.externID =
      some (mkTodo s.nextID ev.externID ev.todo now) := by
    unfold getTodoByExternID
    rw [find_append_of_left_none _ _ _ hmiss]
    simp [mkTodo]
  refine ⟨by rw [hA, hB], ?_, ?_⟩
  · rw [hA]
    have hget : getTodo
        ({ rows := s.rows ++ [mkTodo s.nextID ev.externID ev.todo now],
           nextID := s.nextID + 1 } : DBState) s.nextID =
        some (mkTodo s.nextID ev.externID ev.todo now) := by
      unfold getTodo
      rw [find_append_of_left_none]
      · simp [mkTodo]
      · rw [List.find?_eq_none]
        intro r hr
        simp [hfresh r hr]
    have hall : ∀ q ∈ (s.rows ++ [mkTodo s.nextID ev.externID ev.todo now]),
        q.id = s.nextID → q = mkTodo s.nextID ev.externID ev.todo now := by
      intro q hq hid
      rcases List.mem_append.mp hq with hq1 | hq2
      · exact absurd hid (hfresh q hq1)
      · simpa using hq2
    have ht : (if ev.todo = "" then none else some ev.todo).getD
        (mkTodo s.nextID ev.externID ev.todo now).todo =
        (mkTodo s.nextID ev.externID ev.todo now).todo := by
      by_cases hempty : ev.todo = "" <;> simp [hempty, mkTodo]
    have hc : ev.completed.getD (mkTodo s.nextID ev.externID ev.todo now).completed =
        (mkTodo s.nextID ev.externID ev.todo now).completed := by
      rcases hdone with h0 | h0 <;> simp [h0, mkTodo]
    have hupd := updateTodo_writes_existing
      { rows := s.rows ++ [mkTodo s.nextID ev.externID ev.todo now],
        nextID := s.nextID + 1 } s.nextID
      (mkTodo s.nextID ev.externID ev.todo now)
      (if ev.todo = "" then none else some ev.todo) ev.completed
      hget ht hc hall
    simp only [handleTodoUpdated, if_neg hne, hfindA]
    rw [show (mkTodo s.nextID ev.externID ev.todo now).id = s.nextID from rfl]
    rw [hupd]
  · rw [hB, hfindA]
    rfl

/-- An updated event without a done value, used to instantiate the
amended C4. -/
def evC4none : TodoSyncEvent :=
  { type := "updated", externID := "t-2", todo := "walk", completed := none,
    nodeID := "node-b", timestamp := 0 }

/-- Witness for the amended C4 at a concrete event and empty store. -/
theorem handleTodoUpdated_heals_witness :
    handleTodoUpdated "node-a" initDB 7 evC4none =
      handleTodoCreated "node-a" initDB 7 { evC4none with type := "created" } ∧
    handleTodoUpdated "node-a"
        (handleTodoCreated "node-a" initDB 7 { evC4none with type := "created" }) 8 evC4none =
      handleTodoCreated "node-a" initDB 7 { evC4none with type := "created" } ∧
    (getTodoByExternID (handleTodoUpdated "node-a" initDB 7 evC4none)
        evC4none.externID).map Todo.completed = some false :=
  handleTodoUpdated_heals "node-a" initDB 7 8 evC4none (by decide) (by rfl)
    (by intro r hr; cases hr) (Or.inl rfl)

/-- A row counts as actively claimed when its status is claimed or
processing (§3 invariant 2's right-hand side). -/
def rowActive (r : Todo) : Bool :=
  decide (r.processingStatus = StatusClaimed) ||
    decide (r.processingStatus = StatusProcessing)

/-- All three claim columns are non-absent. -/
def rowClaimFieldsSet (r : Todo) : Bool :=
  r.claimedBy.isSome && r.claimedAt.isSome && r.lastHeartbeat.isSome

/-- All three claim columns are absent. -/
def rowClaimFieldsClear (r : Todo) : Bool :=
  r.claimedBy.isNone && r.claimedAt.isNone && r.lastHeartbeat.isNone

/-- The invariant exactly as the claim states it: claim-field presence
iff claimed-or-processing, for every row. -/
def specClaimFieldInv (s : DBState) : Bool :=
  s.rows.all (fun r => rowClaimFieldsSet r == rowActive r)

/-- The invariant the store actually maintains: claimed-or-processing
rows have all claim fields set, and pending rows have them clear; rows
finalised out of a claim keep their stale claim fields. -/
def rowInvariant (r : Todo) : Bool :=
  (!rowActive r || rowClaimFieldsSet r) &&
    (!(decide (r.processingStatus = StatusPending)) || rowClaimFieldsClear r)

/-- `rowInvariant` over the whole store. -/
def storeInvariant (s : DBState) : Bool :=
  s.rows.all rowInvariant

/-- The worker's normal lifecycle on one item: create it, claim it,
finalise it as completed. -/
def c1Trace : List StoreOp :=
  [.create 0 "t-1" "pay", .claimNext 1 "node-1", .finalise 2 "t-1" false]

/-- C1 counterexample: after create–claim–finalise(COMPLETED) the single
row is COMPLETED yet still carries `claimed_by = "node-1"` (and the other
claim stamps): `UpdateJobStatus` never clears the claim columns, so the
stated iff-invariant is false on this reachable state. -/
theorem finalise_keeps_claim_fields_counterexample :
    specClaimFieldInv (applyStoreOps initDB c1Trace) = false ∧
    (applyStoreOps initDB c1Trace).rows.map Todo.processingStatus = [StatusCompleted] ∧
    (applyStoreOps initDB c1Trace).rows.map Todo.claimedBy = [some "node-1"] := by
  decide

theorem rowInvariant_mkTodo (id : Nat) (e t : String) (now : Nat) :
    rowInvariant (mkTodo id e t now) = true := rfl

theorem rowInvariant_claimRow (now : Nat) (n : String) (r : Todo) :
    rowInvariant (claimRow now n r) = true := rfl

theorem rowInvariant_releaseRow (r : Todo) :
    rowInvariant (releaseRow r) = true := rfl

theorem rowInvariant_applyUpdate (t? : Option String) (c? : Option Bool) (r : Todo) :
    rowInvariant (applyUpdate t? c? r) = rowInvariant r := rfl

theorem rowInvariant_finaliseRow (now : Nat) (st : String) (r : Todo)
    (hst : st = StatusCompleted ∨ st = StatusFailed) :
    rowInvariant (finaliseRow now st r) = true := by
  rcases hst with rfl | rfl <;> rfl

theorem rowInvariant_startRow (now : Nat) (r : Todo)
    (hr : rowInvariant r = true) (hcl : r.processingStatus = StatusClaimed) :
    rowInvariant (startRow now r) = true := by
  simp [rowInvariant, rowActive, rowClaimFieldsSet, rowClaimFieldsClear, startRow, hcl,
    StatusClaimed, StatusProcessing, StatusPending] at hr ⊢
  exact hr

theorem rowInvariant_heartbeatRow (now : Nat) (externID nodeID : String) (r : Todo)
    (hr : rowInvariant r = true) (hm : heartbeatMatch externID nodeID r = true) :
    rowInvariant { r with lastHeartbeat := some now } = true := by
  simp only [heartbeatMatch, Bool.and_eq_true, Bool.or_eq_true, decide_eq_true_eq] at hm
  obtain ⟨⟨hext, hcb⟩, hst⟩ := hm
  rcases hst with h1 | h1 <;>
    simp [rowInvariant, rowActive, rowClaimFieldsSet, rowClaimFieldsClear, h1, hcb,
      StatusClaimed, StatusProcessing, StatusPending] at hr ⊢ <;>
    exact hr.1

theorem all_rowInvariant_map (rows : List Todo) (f : Todo → Todo)
    (h : ∀ r ∈ rows, rowInvariant r = true → rowInvariant (f r) = true)
    (hs : rows.all rowInvariant = true) : (rows.map f).all rowInvariant = true := by
  rw [List.all_eq_true] at hs ⊢
  intro x hx
  obtain ⟨a, ha, rfl⟩ := List.mem_map.mp hx
  exact h a ha (hs a ha)

theorem updateTodo_state (s : DBState) (id : Nat) (t? : Option String)
    (c? : Option Bool) (s2 : DBState) (r2 : Todo)
    (h : updateTodo s id t? c? = some (s2, r2)) :
    s2 = s ∨ s2 = { s with rows := s.rows.map (fun q =>
        if q.id = id then applyUpdate t? c? q else q) } := by
  unfold updateTodo at h
  cases hg : getTodo s id with
  | none =>
    rw [hg] at h
    cases h
  | some ex =>
    rw [hg] at h
    simp only at h
    by_cases hb : (t?.isNone && c?.isNone) = true
    · rw [if_pos hb] at h
      injection h with h1
      injection h1 with h2 h3
      exact Or.inl h2.symm
    · rw [if_neg hb] at h
      cases hg2 : getTodo { s with rows := s.rows.map (fun q =>
          if q.id = id then applyUpdate t? c? q else q) } id with
      | none =>
        rw [hg2] at h
        cases h
      | some u =>
        rw [hg2] at h
        injection h with h1
        injection h1 with h2 h3
        exact Or.inr h2.symm

theorem applyStoreOp_preserves_inv (s : DBState) (op : StoreOp)
    (hs : storeInvariant s = true) : storeInvariant (applyStoreOp s op) = true := by
  cases op with
  | create now e t =>
    simp only [applyStoreOp, createTodo]
    by_cases hdup : (s.rows.any fun r => decide (r.externID = e)) = true
    · rw [if_pos hdup]
      exact hs
    · rw [if_neg hdup]
      unfold storeInvariant at hs ⊢
      rw [List.all_append]
      simp [hs, rowInvariant_mkTodo]
  | updatePayload id t c =>
    simp only [applyStoreOp]
    cases hu : updateTodo s id t c with
    | none => exact hs
    | some p =>
      obtain ⟨s2, r2⟩ := p
      rcases updateTodo_state s id t c s2 r2 hu with h2 | h2 <;> rw [h2]
      · exact hs
      · refine all_rowInvariant_map s.rows _ ?_ hs
        intro q hq hqi
        by_cases hid : q.id = id
        · rw [if_pos hid, rowInvariant_applyUpdate]
          exact hqi
        · rw [if_neg hid]
          exact hqi
  | claimNext now n =>
    simp only [applyStoreOp, claimNextPendingTodo]
    cases hsel : selectOldestPending s.rows with
    | none => exact hs
    | some t =>
      refine all_rowInvariant_map s.rows _ ?_ hs
      intro q hq hqi
      by_cases hc : q.id = t.id ∧ q.processingStatus = StatusPending
      · rw [if_pos hc, rowInvariant_claimRow]
      · rw [if_neg hc]
        exact hqi
  | markProcessing now e =>
    simp only [applyStoreOp, markJobProcessing]
    refine all_rowInvariant_map s.rows _ ?_ hs
    intro q hq hqi
    by_cases hc : q.externID = e ∧ q.processingStatus = StatusClaimed
    · rw [if_pos hc]
      exact rowInvariant_startRow now q hqi hc.2
    · rw [if_neg hc]
      exact hqi
  | heartbeat now e n =>
    simp only [applyStoreOp, sendHeartbeat]
    by_cases hany : s.rows.any (heartbeatMatch e n) = true
    · rw [if_pos hany]
      refine all_rowInvariant_map s.rows _ ?_ hs
      intro q hq hqi
      by_cases hm : heartbeatMatch e n q = true
      · rw [if_pos hm]
        exact rowInvariant_heartbeatRow now e n q hqi hm
      · rw [if_neg hm]
        exact hqi
    · rw [if_neg hany]
      exact hs
  | finalise now e failed =>
    simp only [applyStoreOp, updateJobStatus]
    refine all_rowInvariant_map s.rows _ ?_ hs
    intro q hq hqi
    by_cases hc : q.externID = e
    · rw [if_pos hc]
      refine rowInvariant_finaliseRow now _ q ?_
      cases failed
      · exact Or.inl rfl
      · exact Or.inr rfl
    · rw [if_neg hc]
      exact hqi
  | release e =>
    simp only [applyStoreOp, releaseJob]
    refine all_rowInvariant_map s.rows _ ?_ hs
    intro q hq hqi
    by_cases hc : q.externID = e
    · rw [if_pos hc, rowInvariant_releaseRow]
    · rw [if_neg hc]
      exact hqi

/-- C1 amended: on every store state reachable from the fresh schema by
committed operations, claimed-or-processing rows have `claimed_by`,
`claimed_at` and `last_heartbeat` all non-absent and pending rows have
them all absent; the stated iff fails only because
Finalise (`UpdateJobStatus` to COMPLETED or FAILED) keeps the stale claim
fields on the terminal row (see the counterexample). -/
theorem storeInvariant_reachable (ops : List StoreOp) :
    storeInvariant (applyStoreOps initDB ops) = true := by
  have hgen : ∀ (l : List StoreOp) (s : DBState), storeInvariant s = true →
      storeInvariant (applyStoreOps s l) = true := by
    intro l
    induction l with
    | nil =>
      intro s hs
      exact hs
    | cons op rest ih =>
      intro s hs
      have hstep := applyStoreOp_preserves_inv s op hs
      simpa [applyStoreOps] using ih (applyStoreOp s op) hstep
  exact hgen ops initDB rfl

end AutoClusterSync
